import Mathlib

/-!
Verification development for the ViralCoin trend-analysis engine
(`ai/trend_analyzer.py`, class `TrendAnalyzer`).

Embedding conventions:
* Python strings are modelled as `List Char`; `str.lower`, `str.capitalize`,
  `str.strip`, `str.split` and the regexes used by the engine act on ASCII,
  and are modelled on ASCII character classes.
* Python floats are modelled as exact rationals (`ℚ`); every arithmetic
  operation performed by the engine on the claim-relevant values is exact in
  IEEE double precision at these magnitudes, so the rational model agrees
  with the float computation there.
* Python `int(x)` truncates toward zero; it is modelled by `pyInt`.
* Python dicts keyed by strings are modelled as insertion-ordered
  association lists; `dict[k] = v` is `setk`, `dict.get(k, d)` is
  `(lookupQ k m).getD d`.
* `random.choice(suffixes)` is modelled by an arbitrary caller-supplied
  index `pick`, reduced modulo the length of the suffix list.
* Code paths that raise (`name.split()[0]` on an all-whitespace name) are
  modelled with `Option`: `none` is the raised `IndexError`.
-/

/-! ## Character helpers (ASCII models of the Python character classes) -/

def isAsciiLowerAlpha (c : Char) : Bool := 97 ≤ c.toNat && c.toNat ≤ 122

def isAsciiUpperAlpha (c : Char) : Bool := 65 ≤ c.toNat && c.toNat ≤ 90

def isAsciiDigit (c : Char) : Bool := 48 ≤ c.toNat && c.toNat ≤ 57

def isAsciiAlnum (c : Char) : Bool := isAsciiLowerAlpha c || isAsciiUpperAlpha c || isAsciiDigit c

/-- The whitespace class of Python `str.split` / `str.strip` / regex `\s`
(ASCII part: space, tab, newline, carriage return, vertical tab, form feed). -/
def isPySpace (c : Char) : Bool :=
  c == ' ' || c == Char.ofNat 9 || c == Char.ofNat 10 || c == Char.ofNat 13 ||
  c == Char.ofNat 11 || c == Char.ofNat 12

/-- `str.lower`, per character (ASCII). -/
def pyToLowerChar (c : Char) : Char :=
  if isAsciiUpperAlpha c then Char.ofNat (c.toNat + 32) else c

/-- `str.upper`, per character (ASCII). -/
def pyToUpperChar (c : Char) : Char :=
  if isAsciiLowerAlpha c then Char.ofNat (c.toNat - 32) else c

def pyLower (s : List Char) : List Char := s.map pyToLowerChar

def pyUpper (s : List Char) : List Char := s.map pyToUpperChar

/-! ## String helpers -/

/-- Python substring containment `pat in hay`. -/
def listContains (pat : List Char) : List Char → Bool
  | [] => pat.isEmpty
  | c :: t => pat.isPrefixOf (c :: t) || listContains pat t

/-- `any(k in hay for k in kws)`. -/
def containsAny (hay : List Char) (kws : List (List Char)) : Bool :=
  kws.any (fun k => listContains k hay)

def pySplitAux : List Char → List Char → List (List Char)
  | [], acc => if acc.isEmpty then [] else [acc.reverse]
  | c :: t, acc =>
    if isPySpace c then
      (if acc.isEmpty then pySplitAux t [] else acc.reverse :: pySplitAux t [])
    else pySplitAux t (c :: acc)

/-- Python `str.split()` with no argument: split on whitespace runs,
discarding empty pieces. -/
def pySplit (s : List Char) : List (List Char) := pySplitAux s []

/-- Python `str.strip()`. -/
def pyStrip (s : List Char) : List Char :=
  (((s.dropWhile isPySpace).reverse).dropWhile isPySpace).reverse

/-- Python `str.capitalize()`: first character upper-cased, rest lower-cased. -/
def pyCapitalize : List Char → List Char
  | [] => []
  | c :: t => pyToUpperChar c :: t.map pyToLowerChar

/-- Python `' '.join(ws)`. -/
def joinSpace : List (List Char) → List Char
  | [] => []
  | [w] => w
  | w :: ws => w ++ ' ' :: joinSpace ws

/-- A regex word character (`\w`) over the ASCII fragment. -/
def isWordChar (c : Char) : Bool := isAsciiAlnum c || c == '_'

def wordRunsAux : List Char → List Char → List (List Char)
  | [], acc => if acc.isEmpty then [] else [acc.reverse]
  | c :: t, acc =>
    if isWordChar c then wordRunsAux t (c :: acc)
    else (if acc.isEmpty then wordRunsAux t [] else acc.reverse :: wordRunsAux t [])

/-- Maximal runs of word characters in a string. -/
def wordRuns (s : List Char) : List (List Char) := wordRunsAux s []

/-- Model of `re.findall(r'\b[a-z]{3,}\b', s)`: inside a maximal run of word
characters there is no word boundary, so a match is exactly a maximal run
that consists solely of `[a-z]` and has length at least 3. -/
def reFindLowerRuns (s : List Char) : List (List Char) :=
  (wordRuns s).filter (fun r => r.all isAsciiLowerAlpha && decide (3 ≤ r.length))

def natToStr (n : ℕ) : List Char := Nat.toDigits 10 n

/-- Decimal rendering of an integer, as Python `str`. -/
def intToStr : ℤ → List Char
  | Int.ofNat n => natToStr n
  | Int.negSucc n => '-' :: natToStr (n + 1)

/-- A single-quote character (written via its code point). -/
def squote : Char := Char.ofNat 39

/-- Left and right curly braces (written via their code points). -/
def lbrace : Char := Char.ofNat 123

def rbrace : Char := Char.ofNat 125

/-- Python `repr` of a string that contains no quote or backslash
characters: the string wrapped in single quotes. All record fields fed to
the model satisfy this restriction. -/
def pyQuoted (s : List Char) : List Char := squote :: (s ++ [squote])

def kwList (ws : List String) : List (List Char) := ws.map String.toList

/-! ## Category classifier: `_get_trend_category` (lines 421-443) -/

def cryptoKeywords : List (List Char) :=
  kwList ["bitcoin", "ethereum", "crypto", "blockchain", "nft", "defi", "web3"]

def memeKeywords : List (List Char) :=
  kwList ["meme", "viral", "funny", "joke", "lol", "trending"]

def techKeywords : List (List Char) :=
  kwList ["ai", "artificial", "technology", "software", "hardware", "app", "digital"]

def financeKeywords : List (List Char) :=
  kwList ["market", "stock", "invest", "trading", "finance", "economic"]

def entertainmentKeywords : List (List Char) :=
  kwList ["movie", "music", "celebrity", "game", "play", "stream", "show", "actor", "song"]

/-- `_get_trend_category`: first category (in fixed dict order) one of whose
keywords occurs in the lower-cased topic; `other` when none matches. -/
def get_trend_category (trend_keyword : List Char) : String :=
  let t := pyLower trend_keyword
  if containsAny t cryptoKeywords then "crypto"
  else if containsAny t memeKeywords then "meme"
  else if containsAny t techKeywords then "tech"
  else if containsAny t financeKeywords then "finance"
  else if containsAny t entertainmentKeywords then "entertainment"
  else "other"

/-! ## Binary archetype classifier: `_classify_trend_type` (lines 699-736) -/

def memeArchKeywords : List (List Char) :=
  kwList ["meme", "doge", "shib", "moon", "elon", "pepe", "wojak",
          "chad", "inu", "cat", "safe", "moon", "food", "baby",
          "funny", "joke", "lol", "wow", "pump"]

def utilityArchKeywords : List (List Char) :=
  kwList ["defi", "swap", "chain", "finance", "exchange", "protocol",
          "dao", "governance", "stake", "yield", "farm", "nft",
          "metaverse", "game", "play", "earn", "web3", "ai", "smart"]

/-- `_classify_trend_type`: meme keywords checked first, then utility
keywords, then the length fallback (shorter than 6 characters means
memecoin). -/
def classify_trend_type (trend_name : List Char) : String :=
  let normalized := pyLower trend_name
  if containsAny normalized memeArchKeywords then "memecoin"
  else if containsAny normalized utilityArchKeywords then "utility"
  else if normalized.length < 6 then "memecoin"
  else "utility"

/-! ## Token configuration derivation (lines 445-608) -/

def lookupS (k : String) : List (String × ℚ) → Option ℚ
  | [] => none
  | p :: t => if p.1 = k then some p.2 else lookupS k t

/-- Python `dict.get(k, dflt)` on a string-keyed table of numbers. -/
def dictGetD (d : List (String × ℚ)) (k : String) (dflt : ℚ) : ℚ :=
  (lookupS k d).getD dflt

/-- Python `int(x)`: truncation toward zero. -/
def pyInt (q : ℚ) : ℤ := Int.tdiv q.num (q.den : ℤ)

def categoryMultipliers : List (String × ℚ) :=
  [("crypto", 1/10), ("meme", 10), ("tech", 5/10), ("finance", 2/10),
   ("entertainment", 5), ("other", 1)]

/-- `_determine_initial_supply`. -/
def determine_initial_supply (category : String) : ℤ :=
  pyInt (1000000000 * dictGetD categoryMultipliers category 1)

def taxAdjustments : List (String × ℚ) :=
  [("crypto", 1), ("meme", 2), ("tech", 5/10), ("finance", 0),
   ("entertainment", 15/10), ("other", 0)]

/-- `_determine_tax_fee`. -/
def determine_tax_fee (category : String) : ℚ :=
  2 + dictGetD taxAdjustments category 0

def liquidityAdjustments : List (String × ℚ) :=
  [("crypto", 1), ("meme", 2), ("tech", 0), ("finance", -5/10),
   ("entertainment", 15/10), ("other", 0)]

/-- `_determine_liquidity_fee`. -/
def determine_liquidity_fee (category : String) : ℚ :=
  3 + dictGetD liquidityAdjustments category 0

def marketingAdjustments : List (String × ℚ) :=
  [("crypto", 1), ("meme", 3), ("tech", 1), ("finance", 5/10),
   ("entertainment", 2), ("other", 1)]

/-- `_determine_marketing_fee`. -/
def determine_marketing_fee (category : String) : ℚ :=
  2 + dictGetD marketingAdjustments category 0

def maxWalletAdjustments : List (String × ℚ) :=
  [("crypto", 0), ("meme", -5/10), ("tech", 1), ("finance", 15/10),
   ("entertainment", -75/100), ("other", 0)]

/-- `_determine_max_wallet_size`. -/
def determine_max_wallet_size (category : String) : ℚ :=
  2 + dictGetD maxWalletAdjustments category 0

def maxTransactionAdjustments : List (String × ℚ) :=
  [("crypto", 5/10), ("meme", -25/100), ("tech", 5/10), ("finance", 75/100),
   ("entertainment", -4/10), ("other", 0)]

/-- `_determine_max_transaction_amount`. -/
def determine_max_transaction_amount (category : String) : ℚ :=
  1 + dictGetD maxTransactionAdjustments category 0

def swapThresholdAdjustments : List (String × ℚ) :=
  [("crypto", 5/100), ("meme", 1/10), ("tech", 2/100), ("finance", 3/100),
   ("entertainment", 8/100), ("other", 0)]

/-- `_determine_swap_threshold`. -/
def determine_swap_threshold (category : String) : ℚ :=
  1/10 + dictGetD swapThresholdAdjustments category 0

def suffixes : List (List Char) := kwList ["Coin", "Token", "Finance", "Cash", "Money"]

/-- `_generate_token_name`; `pick` models the `random.choice` draw. -/
def generate_token_name (trend_keyword : List Char) (pick : ℕ) : List Char :=
  let clean_keyword := pyStrip (trend_keyword.filter (fun c => isAsciiAlnum c || isPySpace c))
  let capitalized := joinSpace ((pySplit clean_keyword).map pyCapitalize)
  if capitalized.length < 5 then capitalized ++ ' ' :: (suffixes.getD (pick % 5) [])
  else capitalized

/-- `_generate_token_symbol`. Words produced by `pySplit` are nonempty, so
`word.take 1` is Python `word[0]`; `none` models the `IndexError` raised by
`name.split()[0]` when the name has no words. -/
def generate_token_symbol (name : List Char) : Option (List Char) :=
  let initials := ((pySplit name).map (fun w => w.take 1)).flatten
  if initials.length < 3 then
    match pySplit name with
    | [] => none
    | first_word :: _ => some (pyUpper (first_word.take (min 4 first_word.length)))
  else some (pyUpper (initials.take 4))

structure TokenConfig where
  name : List Char
  symbol : List Char
  description : List Char
  initialSupply : ℤ
  taxFee : ℚ
  liquidityFee : ℚ
  marketingFee : ℚ
  maxWalletSize : ℚ
  maxTransactionAmount : ℚ
  swapThreshold : ℚ
deriving DecidableEq

/-- `_generate_token_config`; `none` propagates the symbol derivation's
`IndexError`. -/
def generate_token_config (trend_keyword : List Char) (trend_category : String)
    (pick : ℕ) : Option TokenConfig :=
  let name := generate_token_name trend_keyword pick
  (generate_token_symbol name).map fun symbol =>
    { name := name
      symbol := symbol
      description := ("Token based on trending topic: ").toList ++ trend_keyword
      initialSupply := determine_initial_supply trend_category
      taxFee := determine_tax_fee trend_category
      liquidityFee := determine_liquidity_fee trend_category
      marketingFee := determine_marketing_fee trend_category
      maxWalletSize := determine_max_wallet_size trend_category
      maxTransactionAmount := determine_max_transaction_amount trend_category
      swapThreshold := determine_swap_threshold trend_category }

/-- `suggest_token_configuration` for an explicitly supplied keyword. -/
def suggest_token_configuration (trend_keyword : List Char) (pick : ℕ) : Option TokenConfig :=
  generate_token_config trend_keyword (get_trend_category trend_keyword) pick

/-- Result record of `generate_token_details` (lines 662-697). The
`launch_date` field (wall-clock time) is outside the embedding. -/
structure TokenDetails where
  name : List Char
  symbol : List Char
  trend_score : ℚ
  tokenomics_type : String
  market_cap : ℚ
  initial_liquidity : ℚ
  initial_supply : ℤ
  description : List Char
deriving DecidableEq

/-- `generate_token_details`. -/
def generate_token_details (trend_name : List Char) (trend_score : ℚ)
    (pick : ℕ) : Option TokenDetails :=
  let trend_type := classify_trend_type trend_name
  let token_name := generate_token_name trend_name pick
  (generate_token_symbol token_name).map fun token_symbol =>
    let market_cap : ℚ := 1000000 * (1 + trend_score / 100)
    { name := token_name
      symbol := token_symbol
      trend_score := trend_score
      tokenomics_type := trend_type
      market_cap := market_cap
      initial_liquidity := market_cap * (2/10)
      initial_supply := determine_initial_supply trend_type
      description := ("Token based on trending topic: ").toList ++ trend_name }

/-! ## Aggregation: `_extract_keywords`, `_compute_trend_scores`,
`analyze_trends` (lines 245-356) -/

/-- One record of the twitter mock shape read by the engine:
`dict` with keys `name` and `tweet_volume`. -/
structure TwitterRec where
  name : List Char
  tweet_volume : ℤ
deriving DecidableEq

/-- One record of the reddit mock shape; the engine reads only `name`,
the serialized text also shows `score`. -/
structure RedditRec where
  name : List Char
  score : ℤ
deriving DecidableEq

/-- One record of the news mock shape; the engine reads only `title`,
the serialized text also shows `score`. -/
structure NewsRec where
  title : List Char
  score : ℤ
deriving DecidableEq

/-- One record of the google-trends mock shape: keys `term` and `score`.
The records fed to the model always carry a `score`, so `get('score', 50)`
is the stored value. -/
structure GoogleRec where
  term : List Char
  score : ℤ
deriving DecidableEq

/-- The `all_trends` dictionary assembled by `analyze_trends`. -/
structure AllTrends where
  twitter : List TwitterRec
  reddit : List RedditRec
  news : List NewsRec
  google : List GoogleRec
deriving DecidableEq

def lookupQ (k : List Char) : List (List Char × ℚ) → Option ℚ
  | [] => none
  | p :: t => if p.1 = k then some p.2 else lookupQ k t

/-- Python `dict[k] = v` on an insertion-ordered dict. -/
def setk (k : List Char) (v : ℚ) : List (List Char × ℚ) → List (List Char × ℚ)
  | [] => [(k, v)]
  | p :: t => if p.1 = k then (k, v) :: t else p :: setk k v t

/-- `d[k] = d.get(k, 0) + w`. -/
def bump (m : List (List Char × ℚ)) (k : List Char) (w : ℚ) : List (List Char × ℚ) :=
  setk k ((lookupQ k m).getD 0 + w) m

/-- `_extract_keywords`, twitter loop body: lower the name, and when nonempty
strip every hash mark and add 3. -/
def twitterStep (m : List (List Char × ℚ)) (r : TwitterRec) : List (List Char × ℚ) :=
  let keyword := pyLower r.name
  if keyword.isEmpty then m
  else bump m (keyword.filter (fun c => c != '#')) 3

/-- `_extract_keywords`, reddit/news loop body: lower the title, find the
`\b[a-z]{3,}\b` tokens, and add 2 for each token longer than 3 characters. -/
def freeTextStep (m : List (List Char × ℚ)) (s : List Char) : List (List Char × ℚ) :=
  let title := pyLower s
  if title.isEmpty then m
  else ((reFindLowerRuns title).filter (fun w => decide (3 < w.length))).foldl
    (fun m w => bump m w 2) m

/-- `_extract_keywords`, google loop body: add `score / 10`. -/
def googleStep (m : List (List Char × ℚ)) (r : GoogleRec) : List (List Char × ℚ) :=
  let keyword := pyLower r.term
  if keyword.isEmpty then m
  else bump m keyword ((r.score : ℚ) / 10)

/-- `_extract_keywords`: the four platform loops in order. -/
def extract_keywords (a : AllTrends) : List (List Char × ℚ) :=
  let m0 := a.twitter.foldl twitterStep []
  let m1 := a.reddit.foldl (fun m r => freeTextStep m r.name) m0
  let m2 := a.news.foldl (fun m r => freeTextStep m r.title) m1
  a.google.foldl googleStep m2

/-- Python `str()` of a twitter record dict. -/
def strOfTwitterRec (r : TwitterRec) : List Char :=
  lbrace :: (pyQuoted (("name").toList) ++ (": ").toList ++ pyQuoted r.name ++
    (", ").toList ++ pyQuoted (("tweet_volume").toList) ++ (": ").toList ++
    intToStr r.tweet_volume ++ [rbrace])

/-- Python `str()` of a reddit record dict. -/
def strOfRedditRec (r : RedditRec) : List Char :=
  lbrace :: (pyQuoted (("name").toList) ++ (": ").toList ++ pyQuoted r.name ++
    (", ").toList ++ pyQuoted (("score").toList) ++ (": ").toList ++
    intToStr r.score ++ [rbrace])

/-- Python `str()` of a news record dict. -/
def strOfNewsRec (r : NewsRec) : List Char :=
  lbrace :: (pyQuoted (("title").toList) ++ (": ").toList ++ pyQuoted r.title ++
    (", ").toList ++ pyQuoted (("score").toList) ++ (": ").toList ++
    intToStr r.score ++ [rbrace])

/-- Python `str()` of a google record dict. -/
def strOfGoogleRec (r : GoogleRec) : List Char :=
  lbrace :: (pyQuoted (("term").toList) ++ (": ").toList ++ pyQuoted r.term ++
    (", ").toList ++ pyQuoted (("score").toList) ++ (": ").toList ++
    intToStr r.score ++ [rbrace])

/-- `' '.join([str(trend) for trend in trends]).lower()` per platform. -/
def platformText (a : AllTrends) : Fin 4 → List Char
  | 0 => pyLower (joinSpace (a.twitter.map strOfTwitterRec))
  | 1 => pyLower (joinSpace (a.reddit.map strOfRedditRec))
  | 2 => pyLower (joinSpace (a.news.map strOfNewsRec))
  | 3 => pyLower (joinSpace (a.google.map strOfGoogleRec))

/-- Number of platforms whose serialized record text contains the keyword. -/
def platformsPresent (a : AllTrends) (k : List Char) : ℕ :=
  (List.finRange 4).countP (fun i => listContains k (platformText a i))

def stopwords : List (List Char) :=
  kwList ["the", "and", "that", "have", "for", "not", "with", "you", "this"]

/-- `_compute_trend_scores`: skip stop words, multiply each frequency by
`1 + platforms_present / 4`. -/
def compute_trend_scores (a : AllTrends) (keywords : List (List Char × ℚ)) :
    List (List Char × ℚ) :=
  keywords.foldl
    (fun acc p =>
      if p.1 ∈ stopwords then acc
      else setk p.1 (p.2 * (1 + (platformsPresent a p.1 : ℚ) / 4)) acc)
    []

/-- The ordering used by `sorted(..., key=lambda x: x[1], reverse=True)`:
descending by score. -/
def scoreGe (x y : List Char × ℚ) : Prop := y.2 ≤ x.2

instance : DecidableRel scoreGe := fun x y => inferInstanceAs (Decidable (y.2 ≤ x.2))

instance : IsTotal (List Char × ℚ) scoreGe := ⟨fun a b => le_total b.2 a.2⟩

instance : IsTrans (List Char × ℚ) scoreGe := ⟨fun _ _ _ h1 h2 => le_trans h2 h1⟩

/-- Python `sorted` is a stable sort; any stable sort by the same key yields
the same list, so it is modelled by stable insertion sort. -/
def sortDesc (l : List (List Char × ℚ)) : List (List Char × ℚ) :=
  List.insertionSort scoreGe l

/-- The `top_trends` entry of `analyze_trends`: scores of the extracted
keywords, ranked descending, first ten. -/
def top_trends (a : AllTrends) : List (List Char × ℚ) :=
  (sortDesc (compute_trend_scores a (extract_keywords a))).take 10

/-! ## Spec-side definitions (for refinement comparisons only) -/

/-- The fixed category taxonomy, from the spec data model (section 3). -/
def taxonomy : List String :=
  ["crypto", "meme", "tech", "finance", "entertainment", "other"]

/-- Follows the spec text (section 4.4): the per-category supply multiplier
table crypto 0.1, meme 10, tech 0.5, finance 0.2, entertainment 5, other 1. -/
def specCategoryMultiplier : String → ℚ
  | "crypto" => 1/10
  | "meme" => 10
  | "tech" => 5/10
  | "finance" => 2/10
  | "entertainment" => 5
  | _ => 1

/-! ## Concrete inputs and contribution bookkeeping for the
aggregation claims -/

/-- The input of scenario 3: one social (twitter-shaped) record named
"#AI" with raw score 10 and one news record titled "ai trends today" with
raw score 5. -/
def c7input : AllTrends :=
  { twitter := [{ name := ("#AI").toList, tweet_volume := 10 }]
    reddit := []
    news := [{ title := ("ai trends today").toList, score := 5 }]
    google := [] }

/-- Two twitter records whose extracted keywords end with equal final
scores. -/
def c3inputA : AllTrends :=
  { twitter := [{ name := ("#aa").toList, tweet_volume := 1 },
                { name := ("#ab").toList, tweet_volume := 2 }]
    reddit := [], news := [], google := [] }

/-- The same multiset of records with the twitter list transposed. -/
def c3inputB : AllTrends :=
  { twitter := [{ name := ("#ab").toList, tweet_volume := 2 },
                { name := ("#aa").toList, tweet_volume := 1 }]
    reddit := [], news := [], google := [] }

/-- The `(keyword, weight)` contributions of one twitter record (the body
of the twitter loop of `_extract_keywords`). -/
def twitterContribs (r : TwitterRec) : List (List Char × ℚ) :=
  let keyword := pyLower r.name
  if keyword.isEmpty then [] else [(keyword.filter (fun c => c != '#'), 3)]

/-- The contributions of one free-text (reddit/news) record. -/
def freeTextContribs (s : List Char) : List (List Char × ℚ) :=
  let title := pyLower s
  if title.isEmpty then []
  else ((reFindLowerRuns title).filter (fun w => decide (3 < w.length))).map (fun w => (w, 2))

/-- The contributions of one google record. -/
def googleContribs (r : GoogleRec) : List (List Char × ℚ) :=
  let keyword := pyLower r.term
  if keyword.isEmpty then [] else [(keyword, (r.score : ℚ) / 10)]

def bumpList (m : List (List Char × ℚ)) (cs : List (List Char × ℚ)) :
    List (List Char × ℚ) :=
  cs.foldl (fun m p => bump m p.1 p.2) m

/-- All contributions of an input, in processing order. -/
def allContribs (a : AllTrends) : List (List Char × ℚ) :=
  ((a.twitter.map twitterContribs).flatten) ++
    (((a.reddit.map (fun (r : RedditRec) => freeTextContribs r.name)).flatten) ++
      (((a.news.map (fun (r : NewsRec) => freeTextContribs r.title)).flatten) ++
        ((a.google.map googleContribs).flatten)))

/-- Total weight contributed to keyword `k` by a contribution list. -/
def sumW (k : List Char) : List (List Char × ℚ) → ℚ
  | [] => 0
  | p :: t => (if p.1 = k then p.2 else 0) + sumW k t

/-! ## Helper lemmas -/

lemma pyInt_intCast (n : ℤ) : pyInt ((n : ℤ) : ℚ) = n := by
  simp [pyInt, Rat.num_intCast, Rat.den_intCast, Int.tdiv_one]

lemma generate_token_config_fields {topic : List Char} {c : String} {pick : ℕ}
    {cfg : TokenConfig} (h : generate_token_config topic c pick = some cfg) :
    cfg.initialSupply = determine_initial_supply c ∧
    cfg.taxFee = determine_tax_fee c ∧
    cfg.liquidityFee = determine_liquidity_fee c ∧
    cfg.marketingFee = determine_marketing_fee c := by
  unfold generate_token_config at h
  rcases Option.map_eq_some'.mp h with ⟨s, _hs, rfl⟩
  exact ⟨rfl, rfl, rfl, rfl⟩

lemma supply_eq_floor_of_tables {c : String} (n : ℤ)
    (h1 : (1000000000 : ℚ) * dictGetD categoryMultipliers c 1 = ((n : ℤ) : ℚ))
    (h2 : (1000000000 : ℚ) * specCategoryMultiplier c = ((n : ℤ) : ℚ)) :
    determine_initial_supply c = ⌊(1000000000 : ℚ) * specCategoryMultiplier c⌋ := by
  unfold determine_initial_supply
  rw [h1, pyInt_intCast, h2, Int.floor_intCast]

lemma lookupS_eq_none {k : String} {d : List (String × ℚ)}
    (h : ∀ p ∈ d, p.1 ≠ k) : lookupS k d = none := by
  induction d with
  | nil => rfl
  | cons p t ih =>
    simp only [lookupS]
    rw [if_neg (h p (List.mem_cons_self p t))]
    exact ih fun q hq => h q (List.mem_cons_of_mem p hq)

/-! ## Claim C1 -/

/-- Claim C1: for every category in the fixed six-element taxonomy, every
topic and every suffix draw, the derived token configuration's initial
supply equals `⌊1,000,000,000 * multiplier⌋`, where the multiplier is the
spec's table (crypto 0.1, meme 10, tech 0.5, finance 0.2, entertainment 5,
other 1). -/
theorem c1_initial_supply_matches_spec_table (topic : List Char) (pick : ℕ)
    (c : String) (hc : c ∈ taxonomy) (cfg : TokenConfig)
    (h : generate_token_config topic c pick = some cfg) :
    cfg.initialSupply = ⌊(1000000000 : ℚ) * specCategoryMultiplier c⌋ := by
  rw [(generate_token_config_fields h).1]
  simp only [taxonomy, List.mem_cons, List.not_mem_nil, or_false] at hc
  rcases hc with rfl | rfl | rfl | rfl | rfl | rfl
  · exact supply_eq_floor_of_tables 100000000
      (by rw [show dictGetD categoryMultipliers "crypto" 1 = 1/10 from rfl]; norm_num)
      (by rw [show specCategoryMultiplier "crypto" = 1/10 from rfl]; norm_num)
  · exact supply_eq_floor_of_tables 10000000000
      (by rw [show dictGetD categoryMultipliers "meme" 1 = 10 from rfl]; norm_num)
      (by rw [show specCategoryMultiplier "meme" = 10 from rfl]; norm_num)
  · exact supply_eq_floor_of_tables 500000000
      (by rw [show dictGetD categoryMultipliers "tech" 1 = 5/10 from rfl]; norm_num)
      (by rw [show specCategoryMultiplier "tech" = 5/10 from rfl]; norm_num)
  · exact supply_eq_floor_of_tables 200000000
      (by rw [show dictGetD categoryMultipliers "finance" 1 = 2/10 from rfl]; norm_num)
      (by rw [show specCategoryMultiplier "finance" = 2/10 from rfl]; norm_num)
  · exact supply_eq_floor_of_tables 5000000000
      (by rw [show dictGetD categoryMultipliers "entertainment" 1 = 5 from rfl]; norm_num)
      (by rw [show specCategoryMultiplier "entertainment" = 5 from rfl]; norm_num)
  · exact supply_eq_floor_of_tables 1000000000
      (by rw [show dictGetD categoryMultipliers "other" 1 = 1 from rfl]; norm_num)
      (by rw [show specCategoryMultiplier "other" = 1 from rfl]; norm_num)

/-- Witness for C1 at topic "Bitcoin", category crypto, pick 0. -/
theorem c1_initial_supply_matches_spec_table_witness :
    "crypto" ∈ taxonomy ∧
    ∃ cfg, generate_token_config (("Bitcoin").toList) "crypto" 0 = some cfg ∧
      cfg.initialSupply = ⌊(1000000000 : ℚ) * specCategoryMultiplier "crypto"⌋ := by
  refine ⟨by decide, ?_⟩
  cases h : generate_token_config (("Bitcoin").toList) "crypto" 0 with
  | none =>
    have hs : (generate_token_config (("Bitcoin").toList) "crypto" 0).isSome = true := rfl
    rw [h] at hs
    simp at hs
  | some cfg =>
    exact ⟨cfg, rfl,
      c1_initial_supply_matches_spec_table (("Bitcoin").toList) 0 "crypto" (by decide) cfg h⟩

/-! ## Claim C2 -/

/-- Claim C2: for the topic "Bitcoin Moon" the classifier returns crypto
(keyword substring match), and the derived configuration has initial supply
100,000,000, tax fee 3.0, liquidity fee 4.0 and marketing fee 3.0. -/
theorem c2_bitcoin_moon_scenario (pick : ℕ) (cfg : TokenConfig)
    (h : suggest_token_configuration (("Bitcoin Moon").toList) pick = some cfg) :
    get_trend_category (("Bitcoin Moon").toList) = "crypto" ∧
    cfg.initialSupply = 100000000 ∧ cfg.taxFee = 3 ∧
    cfg.liquidityFee = 4 ∧ cfg.marketingFee = 3 := by
  have hcat : get_trend_category (("Bitcoin Moon").toList) = "crypto" := by decide
  unfold suggest_token_configuration at h
  rw [hcat] at h
  obtain ⟨h1, h2, h3, h4⟩ := generate_token_config_fields h
  refine ⟨hcat, ?_, ?_, ?_, ?_⟩
  · rw [h1]
    unfold determine_initial_supply
    rw [show dictGetD categoryMultipliers "crypto" 1 = 1/10 from rfl,
      show (1000000000 : ℚ) * (1/10) = ((100000000 : ℤ) : ℚ) from by norm_num,
      pyInt_intCast]
  · rw [h2]
    unfold determine_tax_fee
    rw [show dictGetD taxAdjustments "crypto" 0 = 1 from rfl]
    norm_num
  · rw [h3]
    unfold determine_liquidity_fee
    rw [show dictGetD liquidityAdjustments "crypto" 0 = 1 from rfl]
    norm_num
  · rw [h4]
    unfold determine_marketing_fee
    rw [show dictGetD marketingAdjustments "crypto" 0 = 1 from rfl]
    norm_num

/-- Witness for C2 at pick 0. -/
theorem c2_bitcoin_moon_scenario_witness :
    ∃ cfg, suggest_token_configuration (("Bitcoin Moon").toList) 0 = some cfg ∧
      cfg.initialSupply = 100000000 ∧ cfg.taxFee = 3 := by
  cases h : suggest_token_configuration (("Bitcoin Moon").toList) 0 with
  | none =>
    have hs : (suggest_token_configuration (("Bitcoin Moon").toList) 0).isSome = true := rfl
    rw [h] at hs
    simp at hs
  | some cfg =>
    obtain ⟨_, hsup, htax, _, _⟩ := c2_bitcoin_moon_scenario 0 cfg h
    exact ⟨cfg, rfl, hsup, htax⟩

/-! ## Claim C5 -/

/-- Claim C5: any topic containing (case-insensitively) both a crypto
keyword and a meme keyword classifies as crypto, because crypto is checked
first in the fixed category order. -/
theorem c5_crypto_checked_before_meme (topic : List Char)
    (h1 : containsAny (pyLower topic) cryptoKeywords = true)
    (_h2 : containsAny (pyLower topic) memeKeywords = true) :
    get_trend_category topic = "crypto" := by
  unfold get_trend_category
  simp [h1]

/-- Witness for C5 at topic "meme defi" (meme keyword "meme", crypto
keyword "defi"). -/
theorem c5_crypto_checked_before_meme_witness :
    get_trend_category (("meme defi").toList) = "crypto" :=
  c5_crypto_checked_before_meme (("meme defi").toList) (by decide) (by decide)

/-! ## Claim C9 -/

/-- Claim C9: for every trend name, score and suffix draw, the secondary
derivation returns market cap `1,000,000 * (1 + score/100)` and initial
liquidity `market_cap * 0.2`. -/
theorem c9_market_cap_formula (name : List Char) (score : ℚ) (pick : ℕ)
    (d : TokenDetails) (h : generate_token_details name score pick = some d) :
    d.market_cap = 1000000 * (1 + score / 100) ∧
    d.initial_liquidity = d.market_cap * (1/5) := by
  unfold generate_token_details at h
  rcases Option.map_eq_some'.mp h with ⟨s, _hs, rfl⟩
  refine ⟨rfl, ?_⟩
  show (1000000 * (1 + score / 100)) * (2/10) = (1000000 * (1 + score / 100)) * (1/5)
  norm_num

/-- Witness for C9 at name "Doge", score 50, pick 0. -/
theorem c9_market_cap_formula_witness :
    ∃ d, generate_token_details (("Doge").toList) 50 0 = some d ∧
      d.market_cap = 1000000 * (1 + (50 : ℚ) / 100) := by
  cases h : generate_token_details (("Doge").toList) 50 0 with
  | none =>
    have hs : (generate_token_details (("Doge").toList) 50 0).isSome = true := rfl
    rw [h] at hs
    simp at hs
  | some d =>
    exact ⟨d, rfl, (c9_market_cap_formula (("Doge").toList) 50 0 d h).1⟩

/-! ## Claim C10 -/

/-- Claim C10: the binary archetype classifier is total with range
exactly {memecoin, utility}; a meme-culture keyword match forces memecoin
(the meme list is checked before the utility list); with no keyword match
from either list the result is memecoin exactly when the (lower-cased)
string is shorter than 6 characters. -/
theorem c10_archetype_classifier_cases (s : List Char) :
    (classify_trend_type s = "memecoin" ∨ classify_trend_type s = "utility") ∧
    (containsAny (pyLower s) memeArchKeywords = true →
      classify_trend_type s = "memecoin") ∧
    (containsAny (pyLower s) memeArchKeywords = false →
      containsAny (pyLower s) utilityArchKeywords = false →
      (classify_trend_type s = "memecoin" ↔ (pyLower s).length < 6)) := by
  unfold classify_trend_type
  refine ⟨?_, ?_, ?_⟩
  · by_cases h1 : containsAny (pyLower s) memeArchKeywords <;>
      by_cases h2 : containsAny (pyLower s) utilityArchKeywords <;>
      by_cases h3 : (pyLower s).length < 6 <;>
      simp [h1, h2, h3]
  · intro h
    simp [h]
  · intro h1 h2
    simp only [h1, h2, Bool.false_eq_true, if_false]
    by_cases h3 : (pyLower s).length < 6
    · simp [h3]
    · rw [if_neg h3]
      constructor
      · intro hx
        exact absurd hx (by decide)
      · intro hlen
        exact absurd hlen h3

/-- Witness for C10: the meme-keyword branch at "doge x" and the
length fallback at "xyz". -/
theorem c10_archetype_classifier_cases_witness :
    classify_trend_type (("doge x").toList) = "memecoin" ∧
    (classify_trend_type (("xyz").toList) = "memecoin" ↔
      (pyLower (("xyz").toList)).length < 6) :=
  ⟨(c10_archetype_classifier_cases (("doge x").toList)).2.1 (by decide),
   (c10_archetype_classifier_cases (("xyz").toList)).2.2 (by decide) (by decide)⟩

/-! ## Claim C4 -/

/-- Counterexample for C4: for the topic "xyz" the six-way classifier
returns "other" (it has no length fallback), the binary classifier returns
"memecoin" (not "meme"), and the initial supply derived from either result
is 1,000,000,000, not 10,000,000,000. -/
theorem c4_counterexample :
    get_trend_category (("xyz").toList) = "other" ∧
    ("other" : String) ≠ "meme" ∧
    classify_trend_type (("xyz").toList) = "memecoin" ∧
    determine_initial_supply (get_trend_category (("xyz").toList)) = 1000000000 ∧
    determine_initial_supply (classify_trend_type (("xyz").toList)) = 1000000000 ∧
    (1000000000 : ℤ) ≠ 10000000000 := by
  refine ⟨by decide, by decide, by decide, ?_, ?_, by decide⟩
  · rw [show get_trend_category (("xyz").toList) = "other" from by decide]
    unfold determine_initial_supply
    rw [show dictGetD categoryMultipliers "other" 1 = 1 from rfl,
      show (1000000000 : ℚ) * 1 = ((1000000000 : ℤ) : ℚ) from by norm_num,
      pyInt_intCast]
  · rw [show classify_trend_type (("xyz").toList) = "memecoin" from by decide]
    unfold determine_initial_supply
    rw [show dictGetD categoryMultipliers "memecoin" 1 = 1 from rfl,
      show (1000000000 : ℚ) * 1 = ((1000000000 : ℤ) : ℚ) from by norm_num,
      pyInt_intCast]

/-- Claim C4 as amended: a topic matching no keyword of either classifier
and shorter than 6 characters classifies as "other" in the six-way
classifier (which has no length fallback) and as "memecoin" in the binary
classifier; the supply table contains neither "other"-overriding nor
"memecoin" entries beyond its fixed keys, so the initial supply derived
from either classification is 1,000,000,000 (the default multiplier 1),
not 10,000,000,000. -/
theorem c4_amended_short_nonmatching_topic (topic : List Char)
    (hc : containsAny (pyLower topic) cryptoKeywords = false)
    (hm : containsAny (pyLower topic) memeKeywords = false)
    (ht : containsAny (pyLower topic) techKeywords = false)
    (hf : containsAny (pyLower topic) financeKeywords = false)
    (he : containsAny (pyLower topic) entertainmentKeywords = false)
    (hma : containsAny (pyLower topic) memeArchKeywords = false)
    (hua : containsAny (pyLower topic) utilityArchKeywords = false)
    (hlen : (pyLower topic).length < 6) :
    get_trend_category topic = "other" ∧
    classify_trend_type topic = "memecoin" ∧
    determine_initial_supply (get_trend_category topic) = 1000000000 ∧
    determine_initial_supply (classify_trend_type topic) = 1000000000 := by
  have h1 : get_trend_category topic = "other" := by
    unfold get_trend_category
    simp [hc, hm, ht, hf, he]
  have h2 : classify_trend_type topic = "memecoin" := by
    unfold classify_trend_type
    simp [hma, hua, hlen]
  refine ⟨h1, h2, ?_, ?_⟩
  · rw [h1]
    unfold determine_initial_supply
    rw [show dictGetD categoryMultipliers "other" 1 = 1 from rfl,
      show (1000000000 : ℚ) * 1 = ((1000000000 : ℤ) : ℚ) from by norm_num,
      pyInt_intCast]
  · rw [h2]
    unfold determine_initial_supply
    rw [show dictGetD categoryMultipliers "memecoin" 1 = 1 from rfl,
      show (1000000000 : ℚ) * 1 = ((1000000000 : ℤ) : ℚ) from by norm_num,
      pyInt_intCast]

/-- Witness for the amended C4 at topic "xyz". -/
theorem c4_amended_short_nonmatching_topic_witness :
    get_trend_category (("xyz").toList) = "other" ∧
    classify_trend_type (("xyz").toList) = "memecoin" ∧
    determine_initial_supply (get_trend_category (("xyz").toList)) = 1000000000 ∧
    determine_initial_supply (classify_trend_type (("xyz").toList)) = 1000000000 :=
  c4_amended_short_nonmatching_topic (("xyz").toList) (by decide) (by decide)
    (by decide) (by decide) (by decide) (by decide) (by decide) (by decide)

/-! ## Claim C8 -/

/-- Counterexample for C8: calling the derivation with the category
"memecoin" — a value outside the fixed taxonomy, and precisely the value
`generate_token_details` feeds it — does not fail; it silently yields a
complete configuration built from the table defaults. -/
theorem c8_counterexample :
    ("memecoin" ∉ taxonomy) ∧
    (generate_token_config (("Viral Stuff").toList) "memecoin" 0).isSome = true ∧
    determine_initial_supply "memecoin" = 1000000000 ∧
    determine_tax_fee "memecoin" = 2 ∧
    determine_liquidity_fee "memecoin" = 3 ∧
    determine_marketing_fee "memecoin" = 2 := by
  refine ⟨by decide, rfl, ?_, ?_, ?_, ?_⟩
  · unfold determine_initial_supply
    rw [show dictGetD categoryMultipliers "memecoin" 1 = 1 from rfl,
      show (1000000000 : ℚ) * 1 = ((1000000000 : ℤ) : ℚ) from by norm_num,
      pyInt_intCast]
  · unfold determine_tax_fee
    rw [show dictGetD taxAdjustments "memecoin" 0 = 0 from rfl]
    norm_num
  · unfold determine_liquidity_fee
    rw [show dictGetD liquidityAdjustments "memecoin" 0 = 0 from rfl]
    norm_num
  · unfold determine_marketing_fee
    rw [show dictGetD marketingAdjustments "memecoin" 0 = 0 from rfl]
    norm_num

/-- Claim C8 as amended: every per-category table lookup with a category
outside the taxonomy silently falls back to its default (multiplier 1,
adjustment 0), producing base values for every derived parameter; whether
the derivation call succeeds is independent of the category — it never
raises on an unknown category. -/
theorem c8_amended_unknown_category_coerced (cat : String) (hcat : cat ∉ taxonomy) :
    determine_initial_supply cat = 1000000000 ∧
    determine_tax_fee cat = 2 ∧
    determine_liquidity_fee cat = 3 ∧
    determine_marketing_fee cat = 2 ∧
    determine_max_wallet_size cat = 2 ∧
    determine_max_transaction_amount cat = 1 ∧
    determine_swap_threshold cat = 1/10 ∧
    ∀ (topic : List Char) (pick : ℕ),
      (generate_token_config topic cat pick).isSome =
        (generate_token_symbol (generate_token_name topic pick)).isSome := by
  have hkey : ∀ (d : List (String × ℚ)), d.map Prod.fst = taxonomy →
      ∀ (v : ℚ), dictGetD d cat v = v := by
    intro d hd v
    unfold dictGetD
    rw [lookupS_eq_none ?_]
    · rfl
    · intro p hp hpk
      apply hcat
      rw [← hpk, ← hd]
      exact List.mem_map_of_mem Prod.fst hp
  refine ⟨?_, ?_, ?_, ?_, ?_, ?_, ?_, ?_⟩
  · unfold determine_initial_supply
    rw [hkey categoryMultipliers rfl 1,
      show (1000000000 : ℚ) * 1 = ((1000000000 : ℤ) : ℚ) from by norm_num,
      pyInt_intCast]
  · unfold determine_tax_fee
    rw [hkey taxAdjustments rfl 0]
    norm_num
  · unfold determine_liquidity_fee
    rw [hkey liquidityAdjustments rfl 0]
    norm_num
  · unfold determine_marketing_fee
    rw [hkey marketingAdjustments rfl 0]
    norm_num
  · unfold determine_max_wallet_size
    rw [hkey maxWalletAdjustments rfl 0]
    norm_num
  · unfold determine_max_transaction_amount
    rw [hkey maxTransactionAdjustments rfl 0]
    norm_num
  · unfold determine_swap_threshold
    rw [hkey swapThresholdAdjustments rfl 0]
    norm_num
  · intro topic pick
    unfold generate_token_config
    simp only [← Option.map_eq_map, Option.isSome_map]

/-- Witness for the amended C8 at category "memecoin". -/
theorem c8_amended_unknown_category_coerced_witness :
    determine_initial_supply "memecoin" = 1000000000 ∧
    determine_tax_fee "memecoin" = 2 :=
  ⟨(c8_amended_unknown_category_coerced "memecoin" (by decide)).1,
   (c8_amended_unknown_category_coerced "memecoin" (by decide)).2.1⟩

/-! ## Claim C7 -/

/-- Counterexample for C7: the social hashtag contributes weight 3 — the
flat Twitter increment; the record's raw score is never read — not 30, and
the final score of "ai" is 4.5, not 30 times a single-source multiplier. -/
theorem c7_counterexample :
    lookupQ (("ai").toList) (extract_keywords c7input) = some 3 ∧
    (3 : ℚ) ≠ 30 ∧
    lookupQ (("ai").toList)
      (compute_trend_scores c7input (extract_keywords c7input)) = some (9/2) ∧
    (9/2 : ℚ) ≠ 30 * (1 + (1 : ℚ)/4) := by
  have he : extract_keywords c7input =
      [(("ai").toList, (0:ℚ) + 3), (("trends").toList, (0:ℚ) + 2),
       (("today").toList, (0:ℚ) + 2)] := rfl
  have hc : compute_trend_scores c7input (extract_keywords c7input) =
      [(("ai").toList, ((0:ℚ) + 3) * (1 + ((2:ℕ):ℚ) / 4)),
       (("trends").toList, ((0:ℚ) + 2) * (1 + ((1:ℕ):ℚ) / 4)),
       (("today").toList, ((0:ℚ) + 2) * (1 + ((1:ℕ):ℚ) / 4))] := rfl
  refine ⟨?_, by norm_num, ?_, by norm_num⟩
  · rw [he]
    norm_num [lookupQ]
  · rw [hc]
    norm_num [lookupQ]

/-- Claim C7 as amended: the social hashtag record contributes keyword "ai"
with weight 3 (the fixed Twitter increment; the raw score 10 is ignored);
the news record's "ai" token is dropped by the tokenizer's length-3 filter,
so "ai" keeps summed weight 3; but the news platform's serialized record
text still contains "ai" as a substring, so the keyword is present on two
platforms and its final score is `3 * (1 + 2/4) = 4.5`. -/
theorem c7_amended_evaluation :
    lookupQ (("ai").toList) (extract_keywords c7input) = some 3 ∧
    reFindLowerRuns (pyLower (("ai trends today").toList)) =
      [("trends").toList, ("today").toList] ∧
    platformsPresent c7input (("ai").toList) = 2 ∧
    lookupQ (("ai").toList)
      (compute_trend_scores c7input (extract_keywords c7input)) =
      some (3 * (1 + (2 : ℚ)/4)) := by
  have he : extract_keywords c7input =
      [(("ai").toList, (0:ℚ) + 3), (("trends").toList, (0:ℚ) + 2),
       (("today").toList, (0:ℚ) + 2)] := rfl
  have hc : compute_trend_scores c7input (extract_keywords c7input) =
      [(("ai").toList, ((0:ℚ) + 3) * (1 + ((2:ℕ):ℚ) / 4)),
       (("trends").toList, ((0:ℚ) + 2) * (1 + ((1:ℕ):ℚ) / 4)),
       (("today").toList, ((0:ℚ) + 2) * (1 + ((1:ℕ):ℚ) / 4))] := rfl
  refine ⟨?_, by decide, by decide, ?_⟩
  · rw [he]
    norm_num [lookupQ]
  · rw [hc]
    norm_num [lookupQ]

/-! ## Claim C3, counterexample -/

/-- Counterexample for C3: the two inputs hold the same multiset of
records, yet the ranked lists differ — both keywords score 15/4, and the
stable sort keeps dict insertion order, which follows input order; in
particular the tie between "aa" and "ab" is not broken lexically in the
second run. -/
theorem c3_counterexample :
    c3inputA.twitter.Perm c3inputB.twitter ∧
    c3inputA.reddit = c3inputB.reddit ∧
    c3inputA.news = c3inputB.news ∧
    c3inputA.google = c3inputB.google ∧
    top_trends c3inputA = [(("aa").toList, (15:ℚ)/4), (("ab").toList, (15:ℚ)/4)] ∧
    top_trends c3inputB = [(("ab").toList, (15:ℚ)/4), (("aa").toList, (15:ℚ)/4)] ∧
    top_trends c3inputA ≠ top_trends c3inputB := by
  have hA : compute_trend_scores c3inputA (extract_keywords c3inputA) =
      [(("aa").toList, ((0:ℚ) + 3) * (1 + ((1:ℕ):ℚ) / 4)),
       (("ab").toList, ((0:ℚ) + 3) * (1 + ((1:ℕ):ℚ) / 4))] := rfl
  have hB : compute_trend_scores c3inputB (extract_keywords c3inputB) =
      [(("ab").toList, ((0:ℚ) + 3) * (1 + ((1:ℕ):ℚ) / 4)),
       (("aa").toList, ((0:ℚ) + 3) * (1 + ((1:ℕ):ℚ) / 4))] := rfl
  have hv : ((0:ℚ) + 3) * (1 + ((1:ℕ):ℚ) / 4) = 15/4 := by norm_num
  have htA : top_trends c3inputA =
      [(("aa").toList, (15:ℚ)/4), (("ab").toList, (15:ℚ)/4)] := by
    show (sortDesc (compute_trend_scores c3inputA (extract_keywords c3inputA))).take 10 = _
    rw [hA, hv]
    simp [sortDesc, List.insertionSort, List.orderedInsert, scoreGe]
  have htB : top_trends c3inputB =
      [(("ab").toList, (15:ℚ)/4), (("aa").toList, (15:ℚ)/4)] := by
    show (sortDesc (compute_trend_scores c3inputB (extract_keywords c3inputB))).take 10 = _
    rw [hB, hv]
    simp [sortDesc, List.insertionSort, List.orderedInsert, scoreGe]
  refine ⟨List.Perm.swap _ _ _, rfl, rfl, rfl, htA, htB, ?_⟩
  rw [htA, htB]
  intro h
  have := congrArg (List.map Prod.fst) h
  simp at this

/-! ## Claim C6 -/

/-- Counterexample for C6: topic "a" derives name "A Coin" whose symbol is
"A" — length 1, below the claimed lower bound 3; topic "1abc def" derives
symbol "1ABC", which contains a digit, so the symbol alphabet is not
uppercase letters only. -/
theorem c6_counterexample :
    generate_token_symbol (generate_token_name (("a").toList) 0) = some (("A").toList) ∧
    ¬(3 ≤ (("A").toList).length) ∧
    generate_token_symbol (generate_token_name (("1abc def").toList) 0) = some (("1ABC").toList) ∧
    ¬((("1ABC").toList).all isAsciiUpperAlpha = true) := by decide

lemma alnum_bounds {c : Char} (h : isAsciiAlnum c = true) :
    (48 ≤ c.toNat ∧ c.toNat ≤ 57) ∨ (65 ≤ c.toNat ∧ c.toNat ≤ 90) ∨
    (97 ≤ c.toNat ∧ c.toNat ≤ 122) := by
  simp only [isAsciiAlnum, isAsciiLowerAlpha, isAsciiUpperAlpha, isAsciiDigit,
    Bool.or_eq_true, Bool.and_eq_true, decide_eq_true_eq] at h
  tauto

lemma bor_true {a b : Bool} (h : (a || b) = true) : a = true ∨ b = true := by
  rcases a <;> rcases b <;> simp_all

lemma alnum_not_space {c : Char} (h : isAsciiAlnum c = true) : isPySpace c = false := by
  have hb := alnum_bounds h
  rw [Bool.eq_false_iff]
  intro hsp
  simp only [isPySpace, Bool.or_eq_true, beq_iff_eq] at hsp
  rcases hsp with ((((h1 | h1) | h1) | h1) | h1) | h1 <;> subst h1 <;> revert hb <;> decide

lemma alnum_pyToUpperChar {c : Char} (h : isAsciiAlnum c = true) :
    isAsciiAlnum (pyToUpperChar c) = true := by
  unfold pyToUpperChar
  by_cases hl : isAsciiLowerAlpha c = true
  · rw [if_pos hl]
    simp only [isAsciiLowerAlpha, Bool.and_eq_true, decide_eq_true_eq] at hl
    have key : ∀ n, n < 123 → 97 ≤ n → isAsciiAlnum (Char.ofNat (n - 32)) = true := by decide
    exact key c.toNat (by omega) hl.1
  · rw [if_neg hl]
    exact h

lemma alnum_pyToLowerChar {c : Char} (h : isAsciiAlnum c = true) :
    isAsciiAlnum (pyToLowerChar c) = true := by
  unfold pyToLowerChar
  by_cases hu : isAsciiUpperAlpha c = true
  · rw [if_pos hu]
    simp only [isAsciiUpperAlpha, Bool.and_eq_true, decide_eq_true_eq] at hu
    have key : ∀ n, n < 91 → 65 ≤ n → isAsciiAlnum (Char.ofNat (n + 32)) = true := by decide
    exact key c.toNat (by omega) hu.1
  · rw [if_neg hu]
    exact h

lemma upper_or_digit_pyToUpperChar {c : Char} (h : isAsciiAlnum c = true) :
    (isAsciiUpperAlpha (pyToUpperChar c) || isAsciiDigit (pyToUpperChar c)) = true := by
  unfold pyToUpperChar
  by_cases hl : isAsciiLowerAlpha c = true
  · rw [if_pos hl]
    simp only [isAsciiLowerAlpha, Bool.and_eq_true, decide_eq_true_eq] at hl
    have key : ∀ n, n < 123 → 97 ≤ n →
        (isAsciiUpperAlpha (Char.ofNat (n - 32)) || isAsciiDigit (Char.ofNat (n - 32))) = true := by
      decide
    exact key c.toNat (by omega) hl.1
  · rw [if_neg hl]
    simp only [isAsciiAlnum, Bool.or_eq_true] at h
    rcases h with (h | h) | h
    · exact absurd h (by simpa using hl)
    · simp [h]
    · simp [h]

lemma pySplitAux_ne_nil : ∀ (s acc : List Char), ∀ w ∈ pySplitAux s acc, w ≠ [] := by
  intro s
  induction s with
  | nil =>
    intro acc w hw
    unfold pySplitAux at hw
    by_cases ha : acc.isEmpty
    · rw [if_pos ha] at hw
      exact absurd hw (List.not_mem_nil w)
    · rw [if_neg ha] at hw
      rw [List.mem_singleton] at hw
      subst hw
      simp only [ne_eq, List.reverse_eq_nil_iff]
      intro h2
      exact ha (by simp [h2])
  | cons c t ih =>
    intro acc w hw
    unfold pySplitAux at hw
    by_cases hc : isPySpace c = true
    · rw [if_pos hc] at hw
      by_cases ha : acc.isEmpty
      · rw [if_pos ha] at hw
        exact ih [] w hw
      · rw [if_neg ha] at hw
        rcases List.mem_cons.mp hw with h | h
        · subst h
          simp only [ne_eq, List.reverse_eq_nil_iff]
          intro h2
          exact ha (by simp [h2])
        · exact ih [] w h
    · rw [if_neg hc] at hw
      exact ih (c :: acc) w hw

lemma pySplitAux_chars (p : Char → Bool) : ∀ (s acc : List Char),
    (∀ c ∈ s, isPySpace c = true ∨ p c = true) →
    (∀ c ∈ acc, isPySpace c = false ∧ p c = true) →
    ∀ w ∈ pySplitAux s acc, ∀ c ∈ w, isPySpace c = false ∧ p c = true := by
  intro s
  induction s with
  | nil =>
    intro acc _hs hacc w hw c hc
    unfold pySplitAux at hw
    by_cases ha : acc.isEmpty
    · rw [if_pos ha] at hw
      exact absurd hw (List.not_mem_nil w)
    · rw [if_neg ha] at hw
      rw [List.mem_singleton] at hw
      subst hw
      exact hacc c (List.mem_reverse.mp hc)
  | cons d t ih =>
    intro acc hs hacc w hw c hc
    unfold pySplitAux at hw
    by_cases hd : isPySpace d = true
    · rw [if_pos hd] at hw
      have hs' : ∀ c ∈ t, isPySpace c = true ∨ p c = true :=
        fun c hc => hs c (List.mem_cons_of_mem d hc)
      by_cases ha : acc.isEmpty
      · rw [if_pos ha] at hw
        exact ih [] hs' (by simp) w hw c hc
      · rw [if_neg ha] at hw
        rcases List.mem_cons.mp hw with h | h
        · subst h
          exact hacc c (List.mem_reverse.mp hc)
        · exact ih [] hs' (by simp) w h c hc
    · rw [if_neg hd] at hw
      have hpd : p d = true := by
        rcases hs d (List.mem_cons_self d t) with h | h
        · exact absurd h (by simpa using hd)
        · exact h
      have hs' : ∀ c ∈ t, isPySpace c = true ∨ p c = true :=
        fun c hc => hs c (List.mem_cons_of_mem d hc)
      have hacc' : ∀ c ∈ d :: acc, isPySpace c = false ∧ p c = true := by
        intro c hc
        rcases List.mem_cons.mp hc with h | h
        · subst h
          exact ⟨by simpa using hd, hpd⟩
        · exact hacc c h
      exact ih (d :: acc) hs' hacc' w hw c hc

lemma joinSpace_chars (p : Char → Bool) (hsp : p ' ' = true) :
    ∀ (ws : List (List Char)), (∀ w ∈ ws, ∀ c ∈ w, p c = true) →
    ∀ c ∈ joinSpace ws, p c = true := by
  intro ws
  induction ws with
  | nil =>
    intro _ c hc
    exact absurd hc (List.not_mem_nil c)
  | cons w t ih =>
    intro hws c hc
    cases t with
    | nil =>
      exact hws w (List.mem_singleton.mpr rfl) c hc
    | cons w2 t2 =>
      rw [show joinSpace (w :: w2 :: t2) = w ++ ' ' :: joinSpace (w2 :: t2) from rfl] at hc
      rcases List.mem_append.mp hc with h | h
      · exact hws w (List.mem_cons_self w (w2 :: t2)) c h
      · rcases List.mem_cons.mp h with h2 | h2
        · subst h2
          exact hsp
        · exact ih (fun v hv => hws v (List.mem_cons_of_mem w hv)) c h2

lemma pyStrip_subset {s : List Char} : ∀ c ∈ pyStrip s, c ∈ s := by
  intro c hc
  unfold pyStrip at hc
  rw [List.mem_reverse] at hc
  have h1 := (List.dropWhile_sublist isPySpace).subset hc
  rw [List.mem_reverse] at h1
  exact (List.dropWhile_sublist isPySpace).subset h1

lemma suffix_chars : ∀ (i : ℕ), ∀ c ∈ suffixes.getD i [], isAsciiAlnum c = true := by
  intro i
  rcases i with _ | _ | _ | _ | _ | n
  · decide
  · decide
  · decide
  · decide
  · decide
  · intro c h
    rw [List.getD_eq_default] at h
    · exact absurd h (List.not_mem_nil c)
    · show suffixes.length ≤ n + 5
      rw [show suffixes.length = 5 from rfl]
      omega

/-- Every character of a derived token name is ASCII alphanumeric or a
space. -/
lemma generate_token_name_chars (topic : List Char) (pick : ℕ) :
    ∀ c ∈ generate_token_name topic pick, isAsciiAlnum c = true ∨ c = ' ' := by
  intro c hc
  unfold generate_token_name at hc
  have hclean : ∀ c ∈ pyStrip (topic.filter (fun c => isAsciiAlnum c || isPySpace c)),
      isPySpace c = true ∨ isAsciiAlnum c = true := by
    intro c hc
    have := (List.mem_filter.mp (pyStrip_subset c hc)).2
    rcases bor_true this with h | h
    · exact Or.inr h
    · exact Or.inl h
  have hwords := pySplitAux_chars isAsciiAlnum
    (pyStrip (topic.filter (fun c => isAsciiAlnum c || isPySpace c))) [] hclean (by simp)
  have hcap : ∀ w ∈ (pySplit (pyStrip (topic.filter (fun c => isAsciiAlnum c || isPySpace c)))).map
      pyCapitalize, ∀ c ∈ w, (isAsciiAlnum c || (c == ' ')) = true := by
    intro w hw c hcw
    rcases List.mem_map.mp hw with ⟨w0, hw0, rfl⟩
    have hw0chars := hwords w0 hw0
    cases w0 with
    | nil => exact absurd hcw (List.not_mem_nil c)
    | cons c0 t0 =>
      rcases List.mem_cons.mp hcw with h | h
      · subst h
        rw [alnum_pyToUpperChar (hw0chars c0 (List.mem_cons_self c0 t0)).2]
        rfl
      · rcases List.mem_map.mp h with ⟨c1, hc1, rfl⟩
        rw [alnum_pyToLowerChar (hw0chars c1 (List.mem_cons_of_mem c0 hc1)).2]
        rfl
  have hjoin := joinSpace_chars (fun c => isAsciiAlnum c || (c == ' ')) (by decide) _ hcap
  by_cases hlen : (joinSpace ((pySplit (pyStrip (topic.filter
      (fun c => isAsciiAlnum c || isPySpace c)))).map pyCapitalize)).length < 5
  · rw [if_pos hlen] at hc
    rcases List.mem_append.mp hc with h | h
    · rcases bor_true (hjoin c h) with h2 | h2
      · exact Or.inl h2
      · exact Or.inr (by simpa using h2)
    · rcases List.mem_cons.mp h with h2 | h2
      · exact Or.inr h2
      · exact Or.inl (suffix_chars (pick % 5) c h2)
  · rw [if_neg hlen] at hc
    rcases bor_true (hjoin c hc) with h2 | h2
    · exact Or.inl h2
    · exact Or.inr (by simpa using h2)

/-- Claim C6 as amended: for every topic and suffix draw, when symbol
derivation succeeds it yields a string of length between 1 and 4 (not 3 and
4) consisting of uppercase ASCII letters and digits (not letters only). -/
theorem c6_amended_symbol_shape (topic : List Char) (pick : ℕ) (s : List Char)
    (h : generate_token_symbol (generate_token_name topic pick) = some s) :
    (1 ≤ s.length ∧ s.length ≤ 4) ∧
    ∀ c ∈ s, (isAsciiUpperAlpha c || isAsciiDigit c) = true := by
  have hchars := generate_token_name_chars topic pick
  have hspaceor : ∀ c ∈ generate_token_name topic pick,
      isPySpace c = true ∨ isAsciiAlnum c = true := by
    intro c hc
    rcases hchars c hc with h2 | h2
    · exact Or.inr h2
    · exact Or.inl (by rw [h2]; rfl)
  have hwords := pySplitAux_chars isAsciiAlnum (generate_token_name topic pick) []
    hspaceor (by simp)
  have hne := pySplitAux_ne_nil (generate_token_name topic pick) []
  unfold generate_token_symbol at h
  by_cases hin : (((pySplit (generate_token_name topic pick)).map
      (fun w => w.take 1)).flatten).length < 3
  · rw [if_pos hin] at h
    rcases hsplit : pySplit (generate_token_name topic pick) with _ | ⟨w, rest⟩
    · rw [hsplit] at h
      exact absurd h (by simp)
    · rw [hsplit] at h
      have hw : w ∈ pySplit (generate_token_name topic pick) := by
        rw [hsplit]
        exact List.mem_cons_self w rest
      have hwne : w ≠ [] := hne w hw
      have hwchars := hwords w hw
      have hs := Option.some.inj h
      subst hs
      constructor
      · constructor
        · rw [pyUpper, List.length_map, List.length_take]
          have : 1 ≤ w.length := List.length_pos.mpr hwne
          omega
        · rw [pyUpper, List.length_map, List.length_take]
          omega
      · intro c hc
        rcases List.mem_map.mp hc with ⟨c0, hc0, rfl⟩
        exact upper_or_digit_pyToUpperChar
          (hwchars c0 (List.take_subset _ w hc0)).2
  · rw [if_neg hin] at h
    have hs := Option.some.inj h
    subst hs
    constructor
    · constructor
      · rw [pyUpper, List.length_map, List.length_take]
        omega
      · rw [pyUpper, List.length_map, List.length_take]
        omega
    · intro c hc
      rcases List.mem_map.mp hc with ⟨c0, hc0, rfl⟩
      have hc0' := List.take_subset 4 _ hc0
      rcases List.mem_flatten.mp hc0' with ⟨piece, hpiece, hcp⟩
      rcases List.mem_map.mp hpiece with ⟨w0, hw0, rfl⟩
      exact upper_or_digit_pyToUpperChar
        ((hwords w0 hw0) c0 (List.take_subset 1 w0 hcp)).2

/-- Witness for the amended C6 at topic "a", pick 0 (symbol "A"). -/
theorem c6_amended_symbol_shape_witness :
    (1 ≤ (("A").toList).length ∧ (("A").toList).length ≤ 4) ∧
    ∀ c ∈ (("A").toList), (isAsciiUpperAlpha c || isAsciiDigit c) = true :=
  c6_amended_symbol_shape (("a").toList) 0 (("A").toList) (by decide)

/-! ## Claim C3, amended: order invariance of summed weights and
sortedness of the ranking -/

lemma bumpList_append (m cs ds : List (List Char × ℚ)) :
    bumpList m (cs ++ ds) = bumpList (bumpList m cs) ds := by
  unfold bumpList
  rw [List.foldl_append]

lemma twitterStep_eq (m : List (List Char × ℚ)) (r : TwitterRec) :
    twitterStep m r = bumpList m (twitterContribs r) := by
  unfold twitterStep twitterContribs
  by_cases h : (pyLower r.name).isEmpty = true
  · simp [h, bumpList]
  · simp [h, bumpList]

lemma freeTextStep_eq (m : List (List Char × ℚ)) (s : List Char) :
    freeTextStep m s = bumpList m (freeTextContribs s) := by
  unfold freeTextStep freeTextContribs
  by_cases h : (pyLower s).isEmpty = true
  · simp [h, bumpList]
  · simp [h, bumpList, List.foldl_map]

lemma googleStep_eq (m : List (List Char × ℚ)) (r : GoogleRec) :
    googleStep m r = bumpList m (googleContribs r) := by
  unfold googleStep googleContribs
  by_cases h : (pyLower r.term).isEmpty = true
  · simp [h, bumpList]
  · simp [h, bumpList]

lemma foldl_bumpList {α : Type} (g : α → List (List Char × ℚ))
    (step : List (List Char × ℚ) → α → List (List Char × ℚ))
    (hstep : ∀ m r, step m r = bumpList m (g r)) :
    ∀ (l : List α) (m : List (List Char × ℚ)),
      l.foldl step m = bumpList m ((l.map g).flatten) := by
  intro l
  induction l with
  | nil => intro m; simp [bumpList]
  | cons a t ih =>
    intro m
    rw [List.foldl_cons, hstep, List.map_cons, List.flatten_cons, bumpList_append, ih]

lemma extract_keywords_eq (a : AllTrends) :
    extract_keywords a = bumpList [] (allContribs a) := by
  have hwhole : extract_keywords a =
      List.foldl googleStep
        (List.foldl (fun m r => freeTextStep m r.title)
          (List.foldl (fun m r => freeTextStep m r.name)
            (List.foldl twitterStep [] a.twitter) a.reddit) a.news) a.google := rfl
  rw [hwhole,
    foldl_bumpList twitterContribs twitterStep twitterStep_eq,
    foldl_bumpList (fun (r : RedditRec) => freeTextContribs r.name)
      (fun m (r : RedditRec) => freeTextStep m r.name)
      (fun m r => freeTextStep_eq m r.name),
    foldl_bumpList (fun (r : NewsRec) => freeTextContribs r.title)
      (fun m (r : NewsRec) => freeTextStep m r.title)
      (fun m r => freeTextStep_eq m r.title),
    foldl_bumpList googleContribs googleStep googleStep_eq]
  unfold allContribs
  rw [bumpList_append, bumpList_append, bumpList_append]

lemma lookupQ_setk (k : List Char) (v : ℚ) :
    ∀ (m : List (List Char × ℚ)) (x : List Char),
      lookupQ x (setk k v m) = if x = k then some v else lookupQ x m := by
  intro m
  induction m with
  | nil =>
    intro x
    by_cases h : x = k
    · subst h; simp [setk, lookupQ]
    · simp [setk, lookupQ, h, Ne.symm h]
  | cons p t ih =>
    intro x
    unfold setk
    by_cases hpk : p.1 = k
    · rw [if_pos hpk]
      by_cases hx : x = k
      · subst hx; simp [lookupQ]
      · have hpx : ¬(p.1 = x) := fun h => hx (hpk ▸ h).symm
        simp [lookupQ, hx, hpx, Ne.symm hx]
    · rw [if_neg hpk]
      by_cases hpx : p.1 = x
      · have hx : ¬(x = k) := fun h => hpk (hpx.trans h)
        simp [lookupQ, hpx, hx]
      · simp [lookupQ, hpx, ih x]

lemma lookupQ_bump (m : List (List Char × ℚ)) (k : List Char) (w : ℚ) (x : List Char) :
    lookupQ x (bump m k w) =
      if x = k then some ((lookupQ k m).getD 0 + w) else lookupQ x m := by
  unfold bump
  rw [lookupQ_setk]

lemma lookupQ_bumpList_general :
    ∀ (cs m : List (List Char × ℚ)) (k : List Char),
      lookupQ k (bumpList m cs) =
        match lookupQ k m with
        | some v => some (v + sumW k cs)
        | none => if k ∈ cs.map Prod.fst then some (sumW k cs) else none := by
  intro cs
  induction cs with
  | nil =>
    intro m k
    cases h : lookupQ k m <;> simp [bumpList, sumW, h]
  | cons c t ih =>
    intro m k
    have hstep : bumpList m (c :: t) = bumpList (bump m c.1 c.2) t := rfl
    rw [hstep, ih (bump m c.1 c.2) k, lookupQ_bump]
    by_cases hk : k = c.1
    · subst hk
      rw [if_pos rfl]
      cases hm : lookupQ c.1 m
      · simp [hm, sumW]
      · simp [hm, sumW, add_assoc]
    · rw [if_neg hk]
      cases hm : lookupQ k m
      · simp only [hm, sumW, List.map_cons, List.mem_cons]
        rw [if_neg (Ne.symm hk), zero_add]
        have hiff : (k = c.1 ∨ k ∈ List.map Prod.fst t) ↔ k ∈ List.map Prod.fst t := by
          simp [hk]
        rw [if_congr hiff rfl rfl]
      · simp only [hm, sumW]
        rw [if_neg (Ne.symm hk), zero_add]

lemma lookupQ_bumpList_nil (cs : List (List Char × ℚ)) (k : List Char) :
    lookupQ k (bumpList [] cs) =
      if k ∈ cs.map Prod.fst then some (sumW k cs) else none := by
  rw [lookupQ_bumpList_general]
  rfl

lemma sumW_perm {cs ds : List (List Char × ℚ)} (h : cs.Perm ds) (k : List Char) :
    sumW k cs = sumW k ds := by
  induction h with
  | nil => rfl
  | cons x _h ih => simp [sumW, ih]
  | swap x y l => simp only [sumW]; ring
  | trans _h1 _h2 ih1 ih2 => rw [ih1, ih2]

lemma allContribs_perm {a b : AllTrends} (h1 : a.twitter.Perm b.twitter)
    (h2 : a.reddit.Perm b.reddit) (h3 : a.news.Perm b.news)
    (h4 : a.google.Perm b.google) :
    (allContribs a).Perm (allContribs b) := by
  unfold allContribs
  exact List.Perm.append ((h1.map twitterContribs).flatten)
    (List.Perm.append ((h2.map (fun (r : RedditRec) => freeTextContribs r.name)).flatten)
      (List.Perm.append ((h3.map (fun (r : NewsRec) => freeTextContribs r.title)).flatten)
        ((h4.map googleContribs).flatten)))

/-- Claim C3 as amended: the per-keyword summed weights are independent of
the order records are fed in — permuting each platform's record list leaves
the extracted keyword map pointwise unchanged — and the ranked list is
sorted descending by final score; but equal scores keep dict insertion
order (Python's stable sort), which follows input order rather than the
keyword's lexical order, so the full ranked list is not order-independent
in the presence of ties. -/
theorem c3_amended_order_invariance (a b : AllTrends)
    (h1 : a.twitter.Perm b.twitter) (h2 : a.reddit.Perm b.reddit)
    (h3 : a.news.Perm b.news) (h4 : a.google.Perm b.google) :
    (∀ k, lookupQ k (extract_keywords a) = lookupQ k (extract_keywords b)) ∧
    List.Pairwise scoreGe (top_trends a) := by
  constructor
  · intro k
    rw [extract_keywords_eq, extract_keywords_eq, lookupQ_bumpList_nil,
      lookupQ_bumpList_nil]
    have hp := allContribs_perm h1 h2 h3 h4
    rw [sumW_perm hp k]
    have hm : k ∈ (allContribs a).map Prod.fst ↔ k ∈ (allContribs b).map Prod.fst :=
      (hp.map Prod.fst).mem_iff
    by_cases hmem : k ∈ (allContribs a).map Prod.fst
    · rw [if_pos hmem, if_pos (hm.mp hmem)]
    · rw [if_neg hmem, if_neg (fun hx => hmem (hm.mpr hx))]
  · unfold top_trends sortDesc
    exact List.Pairwise.sublist (List.take_sublist 10 _)
      (List.sorted_insertionSort scoreGe _)

/-- Witness for the amended C3 at the transposed two-record inputs. -/
theorem c3_amended_order_invariance_witness :
    lookupQ (("aa").toList) (extract_keywords c3inputA) =
      lookupQ (("aa").toList) (extract_keywords c3inputB) ∧
    List.Pairwise scoreGe (top_trends c3inputA) :=
  ⟨(c3_amended_order_invariance c3inputA c3inputB (List.Perm.swap _ _ _)
      (List.Perm.refl _) (List.Perm.refl _) (List.Perm.refl _)).1 (("aa").toList),
   (c3_amended_order_invariance c3inputA c3inputB (List.Perm.swap _ _ _)
      (List.Perm.refl _) (List.Perm.refl _) (List.Perm.refl _)).2⟩
